import Mathlib

/-!
# GNSS-SDR: GPS ephemeris clock model and GLONASS L1 C/A tracking block

A shallow embedding of

* `src/core/system_parameters/gps_ephemeris.cc` (`check_t`, `sv_clock_drift`,
  `sv_clock_relativistic_term`, `satellitePosition`), and
* the tracking block declared in
  `src/algorithms/tracking/gnuradio_blocks/glonass_l1_ca_dll_pll_tracking_cc.h`.

The type `double` is a type parameter `α` carrying the arithmetic operators, the
comparison `<` and the `<cmath>` functions the source calls.  No law is assumed
about them unless a theorem says so, so every statement proved for all `α`
holds for IEEE-754 doubles in particular.
-/

set_option linter.unusedSectionVars false

namespace GnssSdr

/-- The functions of `<cmath>` called by `gps_ephemeris.cc`. -/
class CMath (α : Type) where
  sqrt : α → α
  sin : α → α
  cos : α → α
  fabs : α → α
  fmod : α → α → α
  atan2 : α → α → α

/-- The constants `gps_ephemeris.cc` takes from `GPS_L1_CA.h` and
`MATH_CONSTANTS.h`; the headers are not part of the sources at hand, so the
values are parameters. -/
structure Constants (α : Type) where
  GPS_GM : α
  GPS_F : α
  GNSS_PI : α
  GNSS_OMEGA_EARTH_DOT : α
  SPEED_OF_LIGHT_M_S : α

/-- The data members of `Gps_Ephemeris` read or written by the functions of
`gps_ephemeris.cc`. -/
structure Gps_Ephemeris (α : Type) where
  d_Toc : α
  d_Toe : α
  d_A_f0 : α
  d_A_f1 : α
  d_A_f2 : α
  d_TGD : α
  d_sqrt_A : α
  d_Delta_n : α
  d_M_0 : α
  d_e_eccentricity : α
  d_OMEGA : α
  d_OMEGA0 : α
  d_OMEGA_DOT : α
  d_i_0 : α
  d_IDOT : α
  d_Cuc : α
  d_Cus : α
  d_Crc : α
  d_Crs : α
  d_Cic : α
  d_Cis : α
  d_satClkDrift : α
  d_dtr : α
  d_satpos_X : α
  d_satpos_Y : α
  d_satpos_Z : α
  d_satvel_X : α
  d_satvel_Y : α
  d_satvel_Z : α

/-- The locals `E`, `E_old`, `dE` of the eccentric-anomaly loop.  `E_old` and
`dE` are declared without an initialiser: `none` is "not yet written". -/
structure KeplerLocals (α : Type) where
  E : α
  E_old : Option α
  dE : Option α

section Ephemeris

variable {α : Type} [Add α] [Sub α] [Mul α] [Div α] [Neg α] [OfScientific α]
  [LT α] [DecidableRel (fun a b : α => a < b)] [CMath α]

/-- Source function `Gps_Ephemeris::check_t`. -/
def check_t (time : α) : α :=
  let half_week : α := 302400.0
  let corrTime := time
  if time > half_week then
    time - 2.0 * half_week
  else if time < -half_week then
    time + 2.0 * half_week
  else
    corrTime

/-- The loop `for (int32_t ii = 1; ii < 20; ii++) { ... }` of
`sv_clock_relativistic_term` and `satellitePosition`, entered with loop
counter `ii` and locals `l`; the result is the locals at loop exit. -/
def keplerFor (c : Constants α) (M e : α) (ii : Nat) (l : KeplerLocals α) :
    KeplerLocals α :=
  if ii < 20 then
    let E_old := l.E
    let E := M + e * CMath.sin l.E
    let dE := CMath.fmod (E - E_old) (2.0 * c.GNSS_PI)
    if CMath.fabs dE < 1e-12 then
      { E := E, E_old := some E_old, dE := some dE }
    else
      keplerFor c M e (ii + 1) { E := E, E_old := some E_old, dE := some dE }
  else
    l
termination_by 20 - ii

/-- The mean anomaly `M` computed at the head of `sv_clock_relativistic_term`
and of `satellitePosition` (the two functions compute it by the same
statements). -/
def meanAnomaly (c : Constants α) (s : Gps_Ephemeris α) (transmitTime : α) : α :=
  let a := s.d_sqrt_A * s.d_sqrt_A
  let tk := check_t (transmitTime - s.d_Toe)
  let n0 := CMath.sqrt (c.GPS_GM / (a * a * a))
  let n := n0 + s.d_Delta_n
  s.d_M_0 + n * tk

/-- Source function `Gps_Ephemeris::sv_clock_relativistic_term`: the returned value and the
object after the call. -/
def sv_clock_relativistic_term (c : Constants α) (s : Gps_Ephemeris α)
    (transmitTime : α) : α × Gps_Ephemeris α :=
  let a := s.d_sqrt_A * s.d_sqrt_A
  let tk := check_t (transmitTime - s.d_Toe)
  let n0 := CMath.sqrt (c.GPS_GM / (a * a * a))
  let n := n0 + s.d_Delta_n
  let M := s.d_M_0 + n * tk
  let E := (keplerFor c M s.d_e_eccentricity 1 { E := M, E_old := none, dE := none }).E
  let d_dtr := c.GPS_F * s.d_e_eccentricity * s.d_sqrt_A * CMath.sin E
  (d_dtr, { s with d_dtr := d_dtr })

/-- Source function `Gps_Ephemeris::sv_clock_drift`: the returned value and the object after
the call. -/
def sv_clock_drift (c : Constants α) (s : Gps_Ephemeris α) (transmitTime : α) :
    α × Gps_Ephemeris α :=
  let dt := check_t (transmitTime - s.d_Toc)
  let r := sv_clock_relativistic_term c s transmitTime
  let s1 := r.2
  let s2 := { s1 with
    d_satClkDrift := s1.d_A_f0 + s1.d_A_f1 * dt + s1.d_A_f2 * (dt * dt) + r.1 }
  let s3 := { s2 with d_satClkDrift := s2.d_satClkDrift - s2.d_TGD }
  (s3.d_satClkDrift, s3)

/-- Source function `Gps_Ephemeris::satellitePosition`: the returned value and the object
after the call. -/
def satellitePosition (c : Constants α) (s : Gps_Ephemeris α) (transmitTime : α) :
    α × Gps_Ephemeris α :=
  let a := s.d_sqrt_A * s.d_sqrt_A
  let tk := check_t (transmitTime - s.d_Toe)
  let n0 := CMath.sqrt (c.GPS_GM / (a * a * a))
  let n := n0 + s.d_Delta_n
  let M := s.d_M_0 + n * tk
  let E := (keplerFor c M s.d_e_eccentricity 1 { E := M, E_old := none, dE := none }).E
  let sek := CMath.sin E
  let cek := CMath.cos E
  let OneMinusecosE := 1.0 - s.d_e_eccentricity * cek
  let ekdot := n / OneMinusecosE
  let sq1e2 := CMath.sqrt (1.0 - s.d_e_eccentricity * s.d_e_eccentricity)
  let tmp_Y := sq1e2 * sek
  let tmp_X := cek - s.d_e_eccentricity
  let nu := CMath.atan2 tmp_Y tmp_X
  let phi := nu + s.d_OMEGA
  let pkdot := sq1e2 * ekdot / OneMinusecosE
  let s2pk := CMath.sin (2.0 * phi)
  let c2pk := CMath.cos (2.0 * phi)
  let u := phi + s.d_Cuc * c2pk + s.d_Cus * s2pk
  let cuk := CMath.cos u
  let suk := CMath.sin u
  let ukdot := pkdot * (1.0 + 2.0 * (s.d_Cus * c2pk - s.d_Cuc * s2pk))
  let r := a * (1.0 - s.d_e_eccentricity * cek) + s.d_Crc * c2pk + s.d_Crs * s2pk
  let rkdot := a * s.d_e_eccentricity * sek * ekdot
    + 2.0 * pkdot * (s.d_Crs * c2pk - s.d_Crc * s2pk)
  let i := s.d_i_0 + s.d_IDOT * tk + s.d_Cic * c2pk + s.d_Cis * s2pk
  let sik := CMath.sin i
  let cik := CMath.cos i
  let ikdot := s.d_IDOT + 2.0 * pkdot * (s.d_Cis * c2pk - s.d_Cic * s2pk)
  let Omega := s.d_OMEGA0 + (s.d_OMEGA_DOT - c.GNSS_OMEGA_EARTH_DOT) * tk
    - c.GNSS_OMEGA_EARTH_DOT * s.d_Toe
  let sok := CMath.sin Omega
  let cok := CMath.cos Omega
  let xprime := r * cuk
  let yprime := r * suk
  let d_satpos_X := xprime * cok - yprime * cik * sok
  let d_satpos_Y := xprime * sok + yprime * cik * cok
  let d_satpos_Z := yprime * sik
  let Omega_dot := s.d_OMEGA_DOT - c.GNSS_OMEGA_EARTH_DOT
  let xpkdot := rkdot * cuk - yprime * ukdot
  let ypkdot := rkdot * suk + xprime * ukdot
  let tmp := ypkdot * cik - d_satpos_Z * ikdot
  let d_satvel_X := -Omega_dot * d_satpos_Y + xpkdot * cok - tmp * sok
  let d_satvel_Y := Omega_dot * d_satpos_X + xpkdot * sok + tmp * cok
  let d_satvel_Z := yprime * cik * ikdot + ypkdot * sik
  let tk := check_t (transmitTime - s.d_Toc)
  let dtr_s := s.d_A_f0 + s.d_A_f1 * tk + s.d_A_f2 * tk * tk
  let dtr_s := dtr_s
    - 2.0 * CMath.sqrt (c.GPS_GM * a) * s.d_e_eccentricity * sek
      / (c.SPEED_OF_LIGHT_M_S * c.SPEED_OF_LIGHT_M_S)
  (dtr_s,
    { s with
      d_satpos_X := d_satpos_X, d_satpos_Y := d_satpos_Y, d_satpos_Z := d_satpos_Z,
      d_satvel_X := d_satvel_X, d_satvel_Y := d_satvel_Y, d_satvel_Z := d_satvel_Z })

/-- One update `E <- M + e*sin(E)` of the loop body. -/
def keplerUpdate (M e E : α) : α := M + e * CMath.sin E

/-- The value `dE = fmod(E - E_old, 2.0 * GNSS_PI)` the loop body computes when
it is entered with `E = E_old`. -/
def keplerDelta (c : Constants α) (M e E_old : α) : α :=
  CMath.fmod (keplerUpdate M e E_old - E_old) (2.0 * c.GNSS_PI)

/-- The test `fabs(dE) < 1e-12` guarding the `break`, for the update made
from `E_old`. -/
def precisionReached (c : Constants α) (M e E_old : α) : Prop :=
  CMath.fabs (keplerDelta c M e E_old) < 1e-12

/-- The loop was left through its `break`: the last `dE` written passes the
test `fabs(dE) < 1e-12`. -/
def exitedByBreak (l : KeplerLocals α) : Prop :=
  ∃ d, l.dE = some d ∧ CMath.fabs d < 1e-12

end Ephemeris

/-! ## Tracking block

`glonass_l1_ca_dll_pll_tracking_cc.h` declares the class and its data members;
the member functions are defined in a `.cc` file that is not part of the
sources at hand.  Their behaviour is modelled from the specification
(§3, §4.5, §4.6); `double` quantities are exact elements of an ordered field
with a floor function.  The model covers the flow control of `general_work`
and the lock detector; the double-precision wrap of the code phase (§3) is
left to the signal chain and nothing is proved about it. -/

/-- Modelled from the spec: the states `Idle → PullIn → Tracking → LockLost`
of the tracking state machine (§4.6); the header has no member holding it. -/
inductive TrackingPhase where
  | Idle
  | PullIn
  | Tracking
  | LockLost
  deriving DecidableEq, Repr

/-- Modelled from the spec: the configuration fixed at construction (§3, §4.5,
§6) that the header does not hold in a data member: the code length in chips
and the consecutive-failure limit of the lock detector. -/
structure TrackingConfig (α : Type) where
  code_length_chips : α
  max_lock_fail : Nat

/-- The data members of `Glonass_L1_Ca_Dll_Pll_Tracking_cc` that carry the
tracking state from one epoch to the next, under the names the header declares
them, and the state-machine state `phase` of the spec.  `double` members and
the sampling frequency `d_fs_in` (an `int64_t` the block uses as a `double`)
are elements of `α`; the unsigned counters and the `int32_t` failure counter,
which only counts up from 0 to the failure limit, are natural numbers. -/
structure Glonass_L1_Ca_Dll_Pll_Tracking_cc (α : Type) where
  d_fs_in : α
  d_channel : Nat
  d_rem_code_phase_chips : α
  d_acq_code_phase_samples : α
  d_acq_carrier_doppler_hz : α
  d_code_freq_chips : α
  d_code_phase_step_chips : α
  d_carrier_doppler_hz : α
  d_acc_carrier_phase_rad : α
  d_current_prn_length_samples : Nat
  d_sample_counter : Nat
  d_acq_sample_stamp : Nat
  d_carrier_lock_test : α
  d_CN0_SNV_dB_Hz : α
  d_carrier_lock_threshold : α
  d_carrier_lock_fail_counter : Nat
  phase : TrackingPhase

/-- Modelled from the spec: the Tracking Epoch Output record of §3. -/
structure TrackingEpochOutput (α : Type) where
  channel : Nat
  sample_index : Nat
  code_phase_chips : α
  carrier_phase_rad : α
  carrier_doppler_hz : α
  CN0_dB_Hz : α
  carrier_lock_test : α
  valid : Bool
  pull_in : Bool

/-- Modelled from the spec: what the Replica Generator, Correlator Engine,
discriminators, loop filters and the CN0 / lock-test estimators (§4.1-§4.5)
deliver for one epoch.  `code_phase_chips` is the code phase of the record,
reduced to one code period by the double-precision wrap of §3; that wrap is
part of the code that is not at hand and is not given a formula here. -/
structure EpochEstimates (α : Type) where
  code_phase_chips : α
  code_freq_chips : α
  carrier_doppler_hz : α
  acc_carrier_phase_rad : α
  CN0_SNV_dB_Hz : α
  carrier_lock_test : α

/-- Modelled from the spec: the signal-processing chain of §4.1-§4.5
(`Cpu_Multicorrelator`, `Tracking_2nd_DLL_filter`, `Tracking_2nd_PLL_filter`,
the CN0 and lock-test estimators), whose code is not part of the sources at
hand, as an arbitrary function of the state and of the samples of the epoch. -/
structure SignalChain (α S : Type) where
  estimate : Glonass_L1_Ca_Dll_Pll_Tracking_cc α → List S → EpochEstimates α

/-- What one invocation of `general_work` reports: the state afterwards, the
number of samples consumed and the output records produced. -/
structure WorkResult (α : Type) where
  state : Glonass_L1_Ca_Dll_Pll_Tracking_cc α
  consumed : Nat
  outputs : List (TrackingEpochOutput α)

section Tracking

variable {α S : Type} [LinearOrderedField α] [FloorRing α]

/-- Modelled from the spec: §4.6 step 1,
`required_samples = round((code_length_chips − rem_code_phase_chips) /
code_phase_step_chips)`. -/
def required_samples (cfg : TrackingConfig α) (st : Glonass_L1_Ca_Dll_Pll_Tracking_cc α) :
    Nat :=
  (round ((cfg.code_length_chips - st.d_rem_code_phase_chips)
    / st.d_code_phase_step_chips)).toNat

/-- Modelled from the spec: the failure counter of the Lock/CN0 Detector
(§4.5): incremented when the lock-test statistic is below the threshold, reset
when it is above; the spec is silent on a statistic equal to the threshold,
where the counter is left as it is. -/
def lock_fail_counter_update (threshold lock_test : α) (counter : Nat) : Nat :=
  if lock_test < threshold then counter + 1
  else if threshold < lock_test then 0
  else counter

/-- Modelled from the spec: Lock Lost is signalled when the failure counter
has reached the consecutive-failure limit (§4.5). -/
def lock_lost_signalled (cfg : TrackingConfig α) (counter : Nat) : Bool :=
  decide (cfg.max_lock_fail ≤ counter)

/-- Modelled from the spec: §4.6 steps 3-5, one epoch processed on
`required_samples` samples: estimates from the signal chain, lock detector
updated, one output record emitted, and the transition to `LockLost` with the
record marked invalid when Lock Lost is signalled (to `Tracking` otherwise).
The remainder carried to the next epoch is what the `n` consumed samples
advance the code beyond the end of the period,
`rem_code_phase_chips + n * code_phase_step_chips − code_length_chips`; it is
negative when `round` of step 1 rounded down, and step 1 of the next epoch
reads it. -/
def process_epoch (cfg : TrackingConfig α) (chain : SignalChain α S)
    (st : Glonass_L1_Ca_Dll_Pll_Tracking_cc α) (input : List S) : WorkResult α :=
  let n := required_samples cfg st
  let est := chain.estimate st (input.take n)
  let counter := lock_fail_counter_update st.d_carrier_lock_threshold est.carrier_lock_test
    st.d_carrier_lock_fail_counter
  let lost := lock_lost_signalled cfg counter
  let rem_code_phase := st.d_rem_code_phase_chips + (n : α) * st.d_code_phase_step_chips
    - cfg.code_length_chips
  { state :=
      { st with
        d_rem_code_phase_chips := rem_code_phase
        d_code_freq_chips := est.code_freq_chips
        d_code_phase_step_chips := est.code_freq_chips / st.d_fs_in
        d_carrier_doppler_hz := est.carrier_doppler_hz
        d_acc_carrier_phase_rad := est.acc_carrier_phase_rad
        d_current_prn_length_samples := n
        d_sample_counter := st.d_sample_counter + n
        d_carrier_lock_test := est.carrier_lock_test
        d_CN0_SNV_dB_Hz := est.CN0_SNV_dB_Hz
        d_carrier_lock_fail_counter := counter
        phase := if lost then TrackingPhase.LockLost else TrackingPhase.Tracking }
    consumed := n
    outputs :=
      [{ channel := st.d_channel
         sample_index := st.d_sample_counter
         code_phase_chips := est.code_phase_chips
         carrier_phase_rad := est.acc_carrier_phase_rad
         carrier_doppler_hz := est.carrier_doppler_hz
         CN0_dB_Hz := est.CN0_SNV_dB_Hz
         carrier_lock_test := est.carrier_lock_test
         valid := !lost
         pull_in := decide (st.phase = TrackingPhase.PullIn) }] }

/-- Modelled from the spec: one invocation of `general_work` (§4.6, §5) on the
samples currently available.  In `Idle` and in the terminal `LockLost` no epoch
is processed; in `PullIn` and `Tracking`, with fewer than `required_samples`
samples available the invocation is deferred (step 2), otherwise one epoch is
processed.  The non-finite values of §7 do not exist in the exact model. -/
def general_work (cfg : TrackingConfig α) (chain : SignalChain α S)
    (st : Glonass_L1_Ca_Dll_Pll_Tracking_cc α) (input : List S) : WorkResult α :=
  match st.phase with
  | TrackingPhase.Idle => { state := st, consumed := 0, outputs := [] }
  | TrackingPhase.LockLost => { state := st, consumed := 0, outputs := [] }
  | _ =>
    if input.length < required_samples cfg st then
      { state := st, consumed := 0, outputs := [] }
    else
      process_epoch cfg chain st input

/-- The state after a sequence of invocations of `general_work`, one per
element of `inputs`. -/
def run_epochs (cfg : TrackingConfig α) (chain : SignalChain α S)
    (st : Glonass_L1_Ca_Dll_Pll_Tracking_cc α) : List (List S) →
      Glonass_L1_Ca_Dll_Pll_Tracking_cc α
  | [] => st
  | input :: rest => run_epochs cfg chain (general_work cfg chain st input).state rest

/-- The number of invocations of a run at which the state machine moves into
`LockLost` from another state. -/
def lock_lost_transitions (cfg : TrackingConfig α) (chain : SignalChain α S)
    (st : Glonass_L1_Ca_Dll_Pll_Tracking_cc α) : List (List S) → Nat
  | [] => 0
  | input :: rest =>
    (if st.phase ≠ TrackingPhase.LockLost
        ∧ (general_work cfg chain st input).state.phase = TrackingPhase.LockLost
      then 1 else 0)
    + lock_lost_transitions cfg chain (general_work cfg chain st input).state rest

/-- The state machine is processing epochs: it is in `PullIn` or `Tracking`. -/
def is_active (st : Glonass_L1_Ca_Dll_Pll_Tracking_cc α) : Prop :=
  st.phase = TrackingPhase.PullIn ∨ st.phase = TrackingPhase.Tracking

/-- An invocation on `input` from `st` processes a failing epoch: enough
samples are available and the lock-test statistic of the epoch is below the
threshold. -/
def failing_epoch (cfg : TrackingConfig α) (chain : SignalChain α S)
    (st : Glonass_L1_Ca_Dll_Pll_Tracking_cc α) (input : List S) : Prop :=
  required_samples cfg st ≤ input.length ∧
    (chain.estimate st (input.take (required_samples cfg st))).carrier_lock_test
      < st.d_carrier_lock_threshold

/-- Every invocation of the run from `st` on `inputs` processes a failing
epoch. -/
def failing_run (cfg : TrackingConfig α) (chain : SignalChain α S)
    (st : Glonass_L1_Ca_Dll_Pll_Tracking_cc α) : List (List S) → Prop
  | [] => True
  | input :: rest =>
    failing_epoch cfg chain st input
      ∧ failing_run cfg chain (general_work cfg chain st input).state rest

end Tracking

/-- The real-number reading of the `<cmath>` functions: `sin`, `cos`, `sqrt`
are the real functions, `fabs` is the absolute value, and `fmod x y` is
`x - y * t` with `t` the quotient `x / y` truncated towards zero. -/
structure RealCMath (m : CMath ℝ) : Prop where
  sqrt_eq : ∀ x, m.sqrt x = Real.sqrt x
  sin_eq : ∀ x, m.sin x = Real.sin x
  cos_eq : ∀ x, m.cos x = Real.cos x
  fabs_eq : ∀ x, m.fabs x = |x|
  fmod_eq : ∀ x y, m.fmod x y = x - y * ((if 0 ≤ x / y then ⌊x / y⌋ else ⌈x / y⌉ : ℤ) : ℝ)

/-- A configuration over the rationals used to instantiate the theorems: code
length 1 chip, consecutive-failure limit 2. -/
def demo_config : TrackingConfig ℚ := { code_length_chips := 1, max_lock_fail := 2 }

/-- A signal chain over the rationals used to instantiate the theorems: code
frequency 1 chip/s and a lock-test statistic of 0 at every epoch. -/
def demo_chain : SignalChain ℚ Unit :=
  { estimate := fun _ _ =>
      { code_phase_chips := 0, code_freq_chips := 1, carrier_doppler_hz := 0,
        acc_carrier_phase_rad := 0, CN0_SNV_dB_Hz := 0, carrier_lock_test := 0 } }

/-- A state in `PullIn` used to instantiate the theorems: one sample per chip,
lock threshold 1, failure counter 0. -/
def demo_state : Glonass_L1_Ca_Dll_Pll_Tracking_cc ℚ :=
  { d_fs_in := 1, d_channel := 0, d_rem_code_phase_chips := 0,
    d_acq_code_phase_samples := 0, d_acq_carrier_doppler_hz := 0, d_code_freq_chips := 1,
    d_code_phase_step_chips := 1, d_carrier_doppler_hz := 0, d_acc_carrier_phase_rad := 0,
    d_current_prn_length_samples := 0, d_sample_counter := 0, d_acq_sample_stamp := 0,
    d_carrier_lock_test := 0, d_CN0_SNV_dB_Hz := 0, d_carrier_lock_threshold := 1,
    d_carrier_lock_fail_counter := 0, phase := TrackingPhase.PullIn }

section EphemerisTheorems

variable {α : Type} [Add α] [Sub α] [Mul α] [Div α] [Neg α] [OfScientific α]
  [LT α] [DecidableRel (fun a b : α => a < b)] [CMath α]

/-- The three branches of `check_t`: a time above half a week is moved back by
a week, a time below minus half a week is moved forward by a week, any other
time is returned as it is. -/
theorem check_t_branches (time : α) :
    ((302400.0 : α) < time → check_t time = time - 2.0 * 302400.0) ∧
      (¬ (302400.0 : α) < time → time < -(302400.0 : α) →
        check_t time = time + 2.0 * 302400.0) ∧
      (¬ (302400.0 : α) < time → ¬ time < -(302400.0 : α) → check_t time = time) := by
  refine ⟨?_, ?_, ?_⟩
  · intro h
    exact if_pos h
  · intro h1 h2
    show (if time > (302400.0 : α) then _ else _) = _
    rw [if_neg h1]
    exact if_pos h2
  · intro h1 h2
    show (if time > (302400.0 : α) then _ else _) = _
    rw [if_neg h1]
    exact if_neg h2

/-- Unfolding of the loop at a counter below 20 whose update passes the
`break` test. -/
theorem keplerFor_break (c : Constants α) (M e : α) (ii : Nat) (l : KeplerLocals α)
    (hii : ii < 20) (h : precisionReached c M e l.E) :
    keplerFor c M e ii l =
      { E := keplerUpdate M e l.E, E_old := some l.E, dE := some (keplerDelta c M e l.E) } := by
  rw [keplerFor, if_pos hii]
  exact if_pos h

/-- Unfolding of the loop at a counter below 20 whose update fails the
`break` test. -/
theorem keplerFor_continue (c : Constants α) (M e : α) (ii : Nat) (l : KeplerLocals α)
    (hii : ii < 20) (h : ¬ precisionReached c M e l.E) :
    keplerFor c M e ii l =
      keplerFor c M e (ii + 1)
        { E := keplerUpdate M e l.E, E_old := some l.E, dE := some (keplerDelta c M e l.E) } := by
  rw [keplerFor, if_pos hii]
  exact if_neg h

/-- Unfolding of the loop once the counter has reached 20. -/
theorem keplerFor_done (c : Constants α) (M e : α) (ii : Nat) (l : KeplerLocals α)
    (hii : ¬ ii < 20) : keplerFor c M e ii l = l := by
  rw [keplerFor, if_neg hii]

/-- The loop entered with counter `ii = 19 - k` makes `m + 1` updates for some
`m ≤ k`; the `break` test failed at the first `m` of them and, when fewer than
`k + 1` updates were made, it passed at the last one. -/
theorem keplerFor_trace (c : Constants α) (M e : α) (k : Nat) :
    ∀ (ii : Nat) (l : KeplerLocals α), ii + k = 19 →
      ∃ m, m ≤ k ∧
        (keplerFor c M e ii l).E = (keplerUpdate M e)^[m + 1] l.E ∧
        (keplerFor c M e ii l).E_old = some ((keplerUpdate M e)^[m] l.E) ∧
        (keplerFor c M e ii l).dE = some (keplerDelta c M e ((keplerUpdate M e)^[m] l.E)) ∧
        (∀ j, j < m → ¬ precisionReached c M e ((keplerUpdate M e)^[j] l.E)) ∧
        (m < k → precisionReached c M e ((keplerUpdate M e)^[m] l.E)) := by
  induction k with
  | zero =>
    intro ii l hk
    have hii : ii < 20 := by omega
    refine ⟨0, le_refl 0, ?_⟩
    by_cases h : precisionReached c M e l.E
    · rw [keplerFor_break c M e ii l hii h]
      simp
    · rw [keplerFor_continue c M e ii l hii h, keplerFor_done c M e (ii + 1) _ (by omega)]
      simp
  | succ k ih =>
    intro ii l hk
    have hii : ii < 20 := by omega
    by_cases h : precisionReached c M e l.E
    · refine ⟨0, Nat.zero_le _, ?_⟩
      rw [keplerFor_break c M e ii l hii h]
      simp [h]
    · obtain ⟨m, hm, hE, hEold, hdE, hfail, hpass⟩ :=
        ih (ii + 1)
          { E := keplerUpdate M e l.E, E_old := some l.E, dE := some (keplerDelta c M e l.E) }
          (by omega)
      refine ⟨m + 1, by omega, ?_⟩
      rw [keplerFor_continue c M e ii l hii h]
      refine ⟨by simpa [Function.iterate_succ_apply] using hE,
        by simpa [Function.iterate_succ_apply] using hEold,
        by simpa [Function.iterate_succ_apply] using hdE, ?_, ?_⟩
      · intro j hj
        cases j with
        | zero => simpa using h
        | succ j =>
          have := hfail j (by omega)
          simpa [Function.iterate_succ_apply] using this
      · intro hlt
        have := hpass (by omega)
        simpa [Function.iterate_succ_apply] using this

/-- C1: for every ephemeris state and every `transmitTime`, the
eccentric-anomaly loop of `sv_clock_relativistic_term` and of
`satellitePosition` makes `n` updates `E <- M + e*sin(E)` from `E = M` with
`1 ≤ n ≤ 19`; the `break` test `|fmod(E - E_old, 2*pi)| < 1e-12` failed at every
update before the last and, when fewer than 19 updates were made, passed at
the last; and both functions return a value computed from that last iterate
(no hypothesis on the eccentricity or on convergence). -/
theorem eccentric_anomaly_loop_bounded (c : Constants α) (s : Gps_Ephemeris α)
    (transmitTime : α) :
    ∃ n, 1 ≤ n ∧ n ≤ 19 ∧
      (keplerFor c (meanAnomaly c s transmitTime) s.d_e_eccentricity 1
          { E := meanAnomaly c s transmitTime, E_old := none, dE := none }).E
        = (keplerUpdate (meanAnomaly c s transmitTime) s.d_e_eccentricity)^[n]
            (meanAnomaly c s transmitTime) ∧
      (∀ j, j + 1 < n →
        ¬ precisionReached c (meanAnomaly c s transmitTime) s.d_e_eccentricity
            ((keplerUpdate (meanAnomaly c s transmitTime) s.d_e_eccentricity)^[j]
              (meanAnomaly c s transmitTime))) ∧
      (n < 19 →
        precisionReached c (meanAnomaly c s transmitTime) s.d_e_eccentricity
            ((keplerUpdate (meanAnomaly c s transmitTime) s.d_e_eccentricity)^[n - 1]
              (meanAnomaly c s transmitTime))) ∧
      (sv_clock_relativistic_term c s transmitTime).1
        = c.GPS_F * s.d_e_eccentricity * s.d_sqrt_A
            * CMath.sin ((keplerUpdate (meanAnomaly c s transmitTime) s.d_e_eccentricity)^[n]
                (meanAnomaly c s transmitTime)) ∧
      (satellitePosition c s transmitTime).1
        = s.d_A_f0 + s.d_A_f1 * check_t (transmitTime - s.d_Toc)
            + s.d_A_f2 * check_t (transmitTime - s.d_Toc) * check_t (transmitTime - s.d_Toc)
          - 2.0 * CMath.sqrt (c.GPS_GM * (s.d_sqrt_A * s.d_sqrt_A)) * s.d_e_eccentricity
              * CMath.sin ((keplerUpdate (meanAnomaly c s transmitTime) s.d_e_eccentricity)^[n]
                  (meanAnomaly c s transmitTime))
              / (c.SPEED_OF_LIGHT_M_S * c.SPEED_OF_LIGHT_M_S) := by
  obtain ⟨m, hm, hE, -, -, hfail, hpass⟩ :=
    keplerFor_trace c (meanAnomaly c s transmitTime) s.d_e_eccentricity 18 1
      { E := meanAnomaly c s transmitTime, E_old := none, dE := none } rfl
  refine ⟨m + 1, by omega, by omega, hE, ?_, ?_, ?_, ?_⟩
  · intro j hj
    exact hfail j (by omega)
  · intro hlt
    exact hpass (by omega)
  · show c.GPS_F * s.d_e_eccentricity * s.d_sqrt_A * CMath.sin _ = _
    rw [← hE]
    rfl
  · rw [← hE]
    rfl

/-- C2: `sv_clock_drift` returns `af0 + af1*dt + af2*dt^2 + dtr - TGD` with
`dt = check_t(transmitTime - Toc)` and
`dtr = sv_clock_relativistic_term(transmitTime) = GPS_F * e * sqrt_A * sin(E)`,
`E` the final iterate of the loop run from the mean anomaly at
`tk = check_t(transmitTime - Toe)`; afterwards `d_satClkDrift` holds the
returned value, `d_dtr` holds `dtr`, and no other member has changed. -/
theorem sv_clock_drift_value (c : Constants α) (s : Gps_Ephemeris α) (transmitTime : α) :
    let dt := check_t (transmitTime - s.d_Toc)
    let a := s.d_sqrt_A * s.d_sqrt_A
    let tk := check_t (transmitTime - s.d_Toe)
    let M := s.d_M_0 + (CMath.sqrt (c.GPS_GM / (a * a * a)) + s.d_Delta_n) * tk
    let E := (keplerFor c M s.d_e_eccentricity 1 { E := M, E_old := none, dE := none }).E
    let dtr := c.GPS_F * s.d_e_eccentricity * s.d_sqrt_A * CMath.sin E
    (sv_clock_relativistic_term c s transmitTime).1 = dtr ∧
    (sv_clock_drift c s transmitTime).1
      = s.d_A_f0 + s.d_A_f1 * dt + s.d_A_f2 * (dt * dt) + dtr - s.d_TGD ∧
    (sv_clock_drift c s transmitTime).2.d_satClkDrift = (sv_clock_drift c s transmitTime).1 ∧
    (sv_clock_drift c s transmitTime).2.d_dtr = dtr ∧
    (sv_clock_drift c s transmitTime).2
      = { s with d_dtr := dtr, d_satClkDrift := (sv_clock_drift c s transmitTime).1 } :=
  ⟨rfl, rfl, rfl, rfl, rfl⟩

/-- C3: `satellitePosition` returns
`af0 + af1*tk + af2*tk*tk - 2*sqrt(GPS_GM*a)*e*sin(E)/c^2` with `a = sqrt_A^2`,
`tk = check_t(transmitTime - Toc)` and `E` the final iterate of the loop run
from the mean anomaly at `check_t(transmitTime - Toe)`; the value does not
depend on `d_TGD`, and `d_satClkDrift` and `d_dtr` are unchanged by the call. -/
theorem satellitePosition_clock_bias (c : Constants α) (s : Gps_Ephemeris α)
    (transmitTime : α) :
    let a := s.d_sqrt_A * s.d_sqrt_A
    let tkE := check_t (transmitTime - s.d_Toe)
    let M := s.d_M_0 + (CMath.sqrt (c.GPS_GM / (a * a * a)) + s.d_Delta_n) * tkE
    let E := (keplerFor c M s.d_e_eccentricity 1 { E := M, E_old := none, dE := none }).E
    let tk := check_t (transmitTime - s.d_Toc)
    (satellitePosition c s transmitTime).1
      = s.d_A_f0 + s.d_A_f1 * tk + s.d_A_f2 * tk * tk
        - 2.0 * CMath.sqrt (c.GPS_GM * a) * s.d_e_eccentricity * CMath.sin E
            / (c.SPEED_OF_LIGHT_M_S * c.SPEED_OF_LIGHT_M_S) ∧
    (∀ g : α, (satellitePosition c { s with d_TGD := g } transmitTime).1
      = (satellitePosition c s transmitTime).1) ∧
    (satellitePosition c s transmitTime).2.d_satClkDrift = s.d_satClkDrift ∧
    (satellitePosition c s transmitTime).2.d_dtr = s.d_dtr :=
  ⟨rfl, fun _ => rfl, rfl, rfl⟩

end EphemerisTheorems

section RealModel

/-- Over the reals `fmod x y` is `x` when `|x| < y`. -/
theorem fmod_eq_self_of_abs_lt [m : CMath ℝ] (hm : RealCMath m) (x y : ℝ) (h : |x| < y) :
    CMath.fmod x y = x := by
  have hy : 0 < y := lt_of_le_of_lt (abs_nonneg x) h
  have hq : |x / y| < 1 := by
    rw [abs_div, abs_of_pos hy, div_lt_one hy]
    exact h
  rw [hm.fmod_eq]
  have hq1 := (abs_lt.mp hq).1
  have hq2 := (abs_lt.mp hq).2
  split_ifs with h0
  · have : ⌊x / y⌋ = 0 := Int.floor_eq_zero_iff.mpr ⟨h0, hq2⟩
    simp [this]
  · have : ⌈x / y⌉ = 0 := Int.ceil_eq_zero_iff.mpr ⟨hq1, le_of_lt (not_le.mp h0)⟩
    simp [this]

/-- Over the reals with `0 ≤ e`, two consecutive iterates of the update differ
by at most `2 * e`. -/
theorem keplerUpdate_step_le [m : CMath ℝ] (hm : RealCMath m) (M e : ℝ) (he0 : 0 ≤ e)
    (k : Nat) :
    |(keplerUpdate M e)^[k + 1] M - (keplerUpdate M e)^[k] M| ≤ 2 * e := by
  have hsin : ∀ x : ℝ, |e * CMath.sin x| ≤ e := by
    intro x
    rw [hm.sin_eq, abs_mul, abs_of_nonneg he0]
    exact mul_le_of_le_one_right he0 (Real.abs_sin_le_one x)
  have key : ∀ a b : ℝ, |keplerUpdate M e a - keplerUpdate M e b| ≤ 2 * e := by
    intro a b
    have h1 := abs_le.mp (hsin a)
    have h2 := abs_le.mp (hsin b)
    simp only [keplerUpdate]
    rw [abs_le]
    constructor <;> linarith [h1.1, h1.2, h2.1, h2.2]
  cases k with
  | zero =>
    have h := hsin M
    simp only [Function.iterate_succ_apply, Function.iterate_zero, id_eq, keplerUpdate,
      zero_add, Function.iterate_one]
    rw [add_sub_cancel_left]
    linarith
  | succ k =>
    rw [Function.iterate_succ_apply' (keplerUpdate M e) (k + 1) M]
    nth_rewrite 2 [Function.iterate_succ_apply' (keplerUpdate M e) k M]
    exact key _ _

/-- C7: over the real-number model of the loop, with `0 ≤ e < 1` (and
`GNSS_PI ≥ 1`), at loop exit `E` and `E_old` differ by at most `2 * e`, the
reduction `fmod(E - E_old, 2*pi)` is the identity (`dE = E - E_old`), and
whenever the loop is left through its `break` the last update changed `E` by
less than `1e-12`. -/
theorem break_means_small_change [m : CMath ℝ] (hm : RealCMath m) (c : Constants ℝ)
    (M e : ℝ) (he0 : 0 ≤ e) (he1 : e < 1) (hpi : 1 ≤ c.GNSS_PI)
    (hbreak : exitedByBreak (keplerFor c M e 1 { E := M, E_old := none, dE := none })) :
    ∃ Eo,
      (keplerFor c M e 1 { E := M, E_old := none, dE := none }).E_old = some Eo ∧
      |(keplerFor c M e 1 { E := M, E_old := none, dE := none }).E - Eo| ≤ 2 * e ∧
      (keplerFor c M e 1 { E := M, E_old := none, dE := none }).dE
        = some ((keplerFor c M e 1 { E := M, E_old := none, dE := none }).E - Eo) ∧
      |(keplerFor c M e 1 { E := M, E_old := none, dE := none }).E - Eo| < 1e-12 := by
  obtain ⟨k, -, hE, hEold, hdE, -, -⟩ :=
    keplerFor_trace c M e 18 1 { E := M, E_old := none, dE := none } rfl
  have hstep := keplerUpdate_step_le hm M e he0 k
  have hlt : |(keplerUpdate M e)^[k + 1] M - (keplerUpdate M e)^[k] M| < 2.0 * c.GNSS_PI := by
    have : (2.0 : ℝ) = 2 := by norm_num
    rw [this]
    linarith
  have hid : keplerDelta c M e ((keplerUpdate M e)^[k] M)
      = (keplerUpdate M e)^[k + 1] M - (keplerUpdate M e)^[k] M := by
    rw [Function.iterate_succ_apply' (keplerUpdate M e) k M] at hlt ⊢
    exact fmod_eq_self_of_abs_lt hm _ _ hlt
  simp only at hE hEold hdE
  obtain ⟨d, hd, hsmall⟩ := hbreak
  rw [hdE, hid] at hd
  rw [hm.fabs_eq, ← Option.some.inj hd] at hsmall
  refine ⟨(keplerUpdate M e)^[k] M, hEold, ?_, ?_, ?_⟩
  · rw [hE]
    exact hstep
  · rw [hdE, hid, hE]
  · rw [hE]
    exact hsmall

/-- The real `<cmath>` functions form a real-number reading. -/
theorem realCMath_exists : ∃ m : CMath ℝ, RealCMath m :=
  ⟨{ sqrt := Real.sqrt, sin := Real.sin, cos := Real.cos, fabs := fun x => |x|,
     fmod := fun x y => x - y * ((if 0 ≤ x / y then ⌊x / y⌋ else ⌈x / y⌉ : ℤ) : ℝ),
     atan2 := fun y x => Complex.arg ⟨x, y⟩ },
   ⟨fun _ => rfl, fun _ => rfl, fun _ => rfl, fun _ => rfl, fun _ _ => rfl⟩⟩

/-- On the orbit of eccentricity `1e-13` at mean anomaly `1`, with
`GNSS_PI = 3`, the loop is left through its `break` at the first update, which
moves `E` away from `E_old = 1`. -/
theorem near_circular_orbit_breaks [m : CMath ℝ] (hm : RealCMath m) :
    exitedByBreak (keplerFor ⟨1, 1, 3, 1, 1⟩ (1 : ℝ) 1e-13 1
        { E := 1, E_old := none, dE := none }) ∧
      (keplerFor ⟨1, 1, 3, 1, 1⟩ (1 : ℝ) 1e-13 1
        { E := 1, E_old := none, dE := none }).E_old = some 1 ∧
      (keplerFor ⟨1, 1, 3, 1, 1⟩ (1 : ℝ) 1e-13 1
        { E := 1, E_old := none, dE := none }).E ≠ 1 := by
  have hsin1 : |Real.sin 1| ≤ 1 := Real.abs_sin_le_one 1
  have hx : |(1 : ℝ) + 1e-13 * Real.sin 1 - 1| ≤ 1e-13 := by
    rw [add_sub_cancel_left, abs_mul, abs_of_pos (by norm_num : (0 : ℝ) < 1e-13)]
    exact mul_le_of_le_one_right (by norm_num) hsin1
  have hp : precisionReached ⟨1, 1, 3, 1, 1⟩ (1 : ℝ) 1e-13
      (KeplerLocals.E { E := 1, E_old := none, dE := none }) := by
    simp only [precisionReached, keplerDelta, keplerUpdate, hm.fabs_eq, hm.sin_eq]
    rw [fmod_eq_self_of_abs_lt hm _ _ (lt_of_le_of_lt hx (by norm_num))]
    exact lt_of_le_of_lt hx (by norm_num)
  have hr := keplerFor_break ⟨1, 1, 3, 1, 1⟩ (1 : ℝ) 1e-13 1
    { E := 1, E_old := none, dE := none } (by norm_num) hp
  refine ⟨?_, ?_, ?_⟩
  · rw [hr]
    exact ⟨_, rfl, hp⟩
  · rw [hr]
  · rw [hr]
    simp only [keplerUpdate, hm.sin_eq]
    have hpos : 0 < Real.sin 1 :=
      Real.sin_pos_of_pos_of_lt_pi zero_lt_one (by linarith [Real.pi_gt_three])
    have hmul : (0 : ℝ) < 1e-13 * Real.sin 1 := mul_pos (by norm_num) hpos
    intro h
    linarith

/-- Witness for `break_means_small_change`: eccentricity `1e-13` at mean
anomaly `1`, with the real `<cmath>` functions and `GNSS_PI = 3`; the loop is
left through its `break` at the first update, which changes `E`. -/
theorem break_means_small_change_witness :
    ∃ m : CMath ℝ, RealCMath m ∧
      exitedByBreak (keplerFor ⟨1, 1, 3, 1, 1⟩ (1 : ℝ) 1e-13 1
        { E := 1, E_old := none, dE := none }) ∧
      ∃ Eo : ℝ,
        (keplerFor ⟨1, 1, 3, 1, 1⟩ (1 : ℝ) 1e-13 1
          { E := 1, E_old := none, dE := none }).E_old = some Eo ∧
        (keplerFor ⟨1, 1, 3, 1, 1⟩ (1 : ℝ) 1e-13 1
          { E := 1, E_old := none, dE := none }).E ≠ Eo ∧
        |(keplerFor ⟨1, 1, 3, 1, 1⟩ (1 : ℝ) 1e-13 1
          { E := 1, E_old := none, dE := none }).E - Eo| < 1e-12 := by
  obtain ⟨m, hm⟩ := realCMath_exists
  obtain ⟨hb, hold, hne⟩ := @near_circular_orbit_breaks m hm
  obtain ⟨Eo, h1, -, -, h4⟩ :=
    @break_means_small_change m hm ⟨1, 1, 3, 1, 1⟩ 1 1e-13 (by norm_num) (by norm_num)
      (by norm_num) hb
  have hEo : Eo = 1 := by
    rw [hold] at h1
    exact (Option.some.inj h1).symm
  refine ⟨m, hm, hb, Eo, h1, ?_, h4⟩
  rw [hEo]
  exact hne

end RealModel

section TrackingTheorems

variable {α S : Type} [LinearOrderedField α] [FloorRing α]

/-- In `PullIn` or `Tracking`, with enough samples available, `general_work`
processes one epoch. -/
theorem general_work_of_active (cfg : TrackingConfig α) (chain : SignalChain α S)
    (st : Glonass_L1_Ca_Dll_Pll_Tracking_cc α) (input : List S) (hact : is_active st)
    (hlen : required_samples cfg st ≤ input.length) :
    general_work cfg chain st input = process_epoch cfg chain st input := by
  have hnot : ¬ input.length < required_samples cfg st := Nat.not_lt.mpr hlen
  rcases hact with h | h <;> simp [general_work, h, hnot]

/-- With fewer samples than required, `general_work` changes nothing. -/
theorem general_work_of_short (cfg : TrackingConfig α) (chain : SignalChain α S)
    (st : Glonass_L1_Ca_Dll_Pll_Tracking_cc α) (input : List S)
    (hlen : input.length < required_samples cfg st) :
    general_work cfg chain st input = { state := st, consumed := 0, outputs := [] } := by
  unfold general_work
  split <;> simp [hlen]

/-- In `LockLost`, `general_work` changes nothing. -/
theorem general_work_of_lock_lost (cfg : TrackingConfig α) (chain : SignalChain α S)
    (st : Glonass_L1_Ca_Dll_Pll_Tracking_cc α) (input : List S)
    (h : st.phase = TrackingPhase.LockLost) :
    general_work cfg chain st input = { state := st, consumed := 0, outputs := [] } := by
  simp [general_work, h]

/-- A failing epoch processed below the limit: the counter goes up by one and
the state machine is in `LockLost` afterwards exactly when the counter has
reached the limit. -/
theorem failing_epoch_step (cfg : TrackingConfig α) (chain : SignalChain α S)
    (st : Glonass_L1_Ca_Dll_Pll_Tracking_cc α) (input : List S) (hact : is_active st)
    (hfail : failing_epoch cfg chain st input) :
    (general_work cfg chain st input).state.d_carrier_lock_fail_counter
        = st.d_carrier_lock_fail_counter + 1 ∧
      (st.d_carrier_lock_fail_counter + 1 < cfg.max_lock_fail →
        (general_work cfg chain st input).state.phase = TrackingPhase.Tracking) ∧
      (cfg.max_lock_fail ≤ st.d_carrier_lock_fail_counter + 1 →
        (general_work cfg chain st input).state.phase = TrackingPhase.LockLost) := by
  rw [general_work_of_active cfg chain st input hact hfail.1]
  have hc : lock_fail_counter_update st.d_carrier_lock_threshold
      (chain.estimate st (input.take (required_samples cfg st))).carrier_lock_test
      st.d_carrier_lock_fail_counter = st.d_carrier_lock_fail_counter + 1 := by
    simp [lock_fail_counter_update, hfail.2]
  refine ⟨hc, ?_, ?_⟩
  · intro hlt
    simp only [process_epoch, hc, lock_lost_signalled]
    simp [Nat.not_le.mpr hlt]
  · intro hle
    simp only [process_epoch, hc, lock_lost_signalled]
    simp [hle]

/-- No transition into `LockLost` is counted on a run that starts in
`LockLost`. -/
theorem lock_lost_transitions_of_lock_lost (cfg : TrackingConfig α)
    (chain : SignalChain α S) (inputs : List (List S)) :
    ∀ st : Glonass_L1_Ca_Dll_Pll_Tracking_cc α, st.phase = TrackingPhase.LockLost →
      lock_lost_transitions cfg chain st inputs = 0 := by
  induction inputs with
  | nil => intro st _; rfl
  | cons input rest ih =>
    intro st h
    have hst : (general_work cfg chain st input).state = st := by
      rw [general_work_of_lock_lost cfg chain st input h]
    simp [lock_lost_transitions, h, hst, ih st h]

/-- The transitions of a run in two parts add up. -/
theorem lock_lost_transitions_append (cfg : TrackingConfig α) (chain : SignalChain α S)
    (xs ys : List (List S)) :
    ∀ st : Glonass_L1_Ca_Dll_Pll_Tracking_cc α,
      lock_lost_transitions cfg chain st (xs ++ ys)
        = lock_lost_transitions cfg chain st xs
          + lock_lost_transitions cfg chain (run_epochs cfg chain st xs) ys := by
  induction xs with
  | nil => intro st; simp [lock_lost_transitions, run_epochs]
  | cons input rest ih =>
    intro st
    simp [lock_lost_transitions, run_epochs, ih, Nat.add_assoc]

/-- A prefix of a run of failing epochs is a run of failing epochs. -/
theorem failing_run_take (cfg : TrackingConfig α) (chain : SignalChain α S)
    (inputs : List (List S)) :
    ∀ (k : Nat) (st : Glonass_L1_Ca_Dll_Pll_Tracking_cc α),
      failing_run cfg chain st inputs → failing_run cfg chain st (inputs.take k) := by
  induction inputs with
  | nil => intro k st _; simp [failing_run]
  | cons input rest ih =>
    intro k st h
    cases k with
    | zero => simp [failing_run]
    | succ k => exact ⟨h.1, ih k _ h.2⟩

/-- Failing epochs that keep the counter below the limit: the state machine
stays active, the counter has counted them, no transition into `LockLost`. -/
theorem failing_run_below_limit (cfg : TrackingConfig α) (chain : SignalChain α S)
    (inputs : List (List S)) :
    ∀ st : Glonass_L1_Ca_Dll_Pll_Tracking_cc α, is_active st →
      failing_run cfg chain st inputs →
      st.d_carrier_lock_fail_counter + inputs.length < cfg.max_lock_fail →
      is_active (run_epochs cfg chain st inputs) ∧
      (run_epochs cfg chain st inputs).d_carrier_lock_fail_counter
        = st.d_carrier_lock_fail_counter + inputs.length ∧
      lock_lost_transitions cfg chain st inputs = 0 := by
  induction inputs with
  | nil => intro st hact _ _; exact ⟨hact, rfl, rfl⟩
  | cons input rest ih =>
    intro st hact hrun hlt
    obtain ⟨hc, htrack, -⟩ := failing_epoch_step cfg chain st input hact hrun.1
    simp only [List.length_cons] at hlt
    have hphase := htrack (by omega)
    obtain ⟨h1, h2, h3⟩ := ih (general_work cfg chain st input).state (Or.inr hphase) hrun.2
      (by omega)
    refine ⟨h1, ?_, ?_⟩
    · simp only [run_epochs, List.length_cons]
      omega
    · simp [lock_lost_transitions, hphase, h3]

/-- Failing epochs that bring the counter exactly to the limit: the state
machine ends in `LockLost` after exactly one transition. -/
theorem failing_run_to_limit (cfg : TrackingConfig α) (chain : SignalChain α S)
    (inputs : List (List S)) :
    ∀ st : Glonass_L1_Ca_Dll_Pll_Tracking_cc α, is_active st →
      failing_run cfg chain st inputs → inputs ≠ [] →
      st.d_carrier_lock_fail_counter + inputs.length = cfg.max_lock_fail →
      (run_epochs cfg chain st inputs).phase = TrackingPhase.LockLost ∧
      lock_lost_transitions cfg chain st inputs = 1 := by
  induction inputs with
  | nil => intro st _ _ hne; exact absurd rfl hne
  | cons input rest ih =>
    intro st hact hrun _ heq
    obtain ⟨hc, htrack, hlost⟩ := failing_epoch_step cfg chain st input hact hrun.1
    simp only [List.length_cons] at heq
    have hnl : st.phase ≠ TrackingPhase.LockLost := by
      rcases hact with h | h <;> simp [h]
    cases rest with
    | nil =>
      simp only [List.length_nil] at heq
      have hphase := hlost (by omega)
      simp [run_epochs, lock_lost_transitions, hphase, hnl]
    | cons input2 rest2 =>
      simp only [List.length_cons] at heq
      have hphase := htrack (by omega)
      obtain ⟨h1, h2⟩ := ih (general_work cfg chain st input).state (Or.inr hphase) hrun.2
        (by simp) (by simp only [List.length_cons]; omega)
      refine ⟨h1, ?_⟩
      have hunfold : lock_lost_transitions cfg chain st (input :: input2 :: rest2)
          = (if st.phase ≠ TrackingPhase.LockLost
                ∧ (general_work cfg chain st input).state.phase = TrackingPhase.LockLost
              then 1 else 0)
            + lock_lost_transitions cfg chain (general_work cfg chain st input).state
                (input2 :: rest2) := rfl
      rw [hunfold, h2, hphase]
      simp

/-- The failure counter goes up by at most one per epoch. -/
theorem lock_fail_counter_update_le (threshold lock_test : α) (counter : Nat) :
    lock_fail_counter_update threshold lock_test counter ≤ counter + 1 := by
  unfold lock_fail_counter_update
  split_ifs <;> omega

/-- C4: with a positive consecutive-failure limit, (per processed epoch) the
failure counter `d_carrier_lock_fail_counter` is incremented when the lock-test
statistic is below the threshold and reset when it is above, and from a counter
below the limit the state machine is in `LockLost` afterwards exactly when the
counter has reached the limit; (per run) from an active state with counter 0,
exactly `max_lock_fail` consecutive failing epochs give exactly one `LockLost`
transition, at the last of them: after `k < max_lock_fail` of them the counter
is `k` and no transition has happened, and no further input adds a second
transition. -/
theorem lock_loss_trigger (cfg : TrackingConfig α) (chain : SignalChain α S)
    (hlim : 0 < cfg.max_lock_fail) :
    (∀ (st : Glonass_L1_Ca_Dll_Pll_Tracking_cc α) (input : List S),
      is_active st → required_samples cfg st ≤ input.length →
      ((chain.estimate st (input.take (required_samples cfg st))).carrier_lock_test
            < st.d_carrier_lock_threshold →
          (general_work cfg chain st input).state.d_carrier_lock_fail_counter
            = st.d_carrier_lock_fail_counter + 1) ∧
      (st.d_carrier_lock_threshold
            < (chain.estimate st (input.take (required_samples cfg st))).carrier_lock_test →
          (general_work cfg chain st input).state.d_carrier_lock_fail_counter = 0
          ∧ (general_work cfg chain st input).state.phase = TrackingPhase.Tracking) ∧
      (st.d_carrier_lock_fail_counter < cfg.max_lock_fail →
          ((general_work cfg chain st input).state.phase = TrackingPhase.LockLost
            ↔ (general_work cfg chain st input).state.d_carrier_lock_fail_counter
                = cfg.max_lock_fail))) ∧
    (∀ (st : Glonass_L1_Ca_Dll_Pll_Tracking_cc α) (inputs : List (List S)),
      is_active st → st.d_carrier_lock_fail_counter = 0 →
      inputs.length = cfg.max_lock_fail → failing_run cfg chain st inputs →
      lock_lost_transitions cfg chain st inputs = 1 ∧
      (run_epochs cfg chain st inputs).phase = TrackingPhase.LockLost ∧
      (∀ k, k < cfg.max_lock_fail →
        (run_epochs cfg chain st (inputs.take k)).phase ≠ TrackingPhase.LockLost ∧
        (run_epochs cfg chain st (inputs.take k)).d_carrier_lock_fail_counter = k ∧
        lock_lost_transitions cfg chain st (inputs.take k) = 0) ∧
      (∀ more : List (List S), lock_lost_transitions cfg chain st (inputs ++ more) = 1)) := by
  refine ⟨?_, ?_⟩
  · intro st input hact hlen
    rw [general_work_of_active cfg chain st input hact hlen]
    refine ⟨?_, ?_, ?_⟩
    · intro hbelow
      simp [process_epoch, lock_fail_counter_update, hbelow]
    · intro habove
      have hnot : ¬ (chain.estimate st (input.take (required_samples cfg st))).carrier_lock_test
          < st.d_carrier_lock_threshold := not_lt.mpr (le_of_lt habove)
      simp [process_epoch, lock_fail_counter_update, lock_lost_signalled, habove, hnot,
        Nat.not_le.mpr hlim]
    · intro hlt
      have hle := lock_fail_counter_update_le st.d_carrier_lock_threshold
        (chain.estimate st (input.take (required_samples cfg st))).carrier_lock_test
        st.d_carrier_lock_fail_counter
      simp only [process_epoch, lock_lost_signalled]
      constructor
      · intro h
        by_cases hreach : cfg.max_lock_fail ≤ lock_fail_counter_update st.d_carrier_lock_threshold
            (chain.estimate st (input.take (required_samples cfg st))).carrier_lock_test
            st.d_carrier_lock_fail_counter
        · omega
        · simp [hreach] at h
      · intro h
        simp [h]
  · intro st inputs hact hzero hlen hrun
    have hne : inputs ≠ [] := by
      intro h
      rw [h] at hlen
      simp at hlen
      omega
    obtain ⟨hphase, htrans⟩ :=
      failing_run_to_limit cfg chain inputs st hact hrun hne (by omega)
    refine ⟨htrans, hphase, ?_, ?_⟩
    · intro k hk
      have hklen : (inputs.take k).length = k := by
        rw [List.length_take]
        omega
      obtain ⟨h1, h2, h3⟩ :=
        failing_run_below_limit cfg chain (inputs.take k) st hact
          (failing_run_take cfg chain inputs k st hrun) (by omega)
      refine ⟨?_, by omega, h3⟩
      rcases h1 with h | h <;> simp [h]
    · intro more
      rw [lock_lost_transitions_append, htrans,
        lock_lost_transitions_of_lock_lost cfg chain more _ hphase]

/-- The run of two one-sample invocations from `demo_state` is a run of
failing epochs. -/
theorem demo_failing_run :
    failing_run demo_config demo_chain demo_state [[()], [()]] := by
  have hreq : ∀ st : Glonass_L1_Ca_Dll_Pll_Tracking_cc ℚ,
      st.d_rem_code_phase_chips = 0 → st.d_code_phase_step_chips = 1 →
      required_samples demo_config st = 1 := by
    intro st h1 h2
    simp [required_samples, demo_config, h1, h2]
  have h0 : required_samples demo_config demo_state = 1 := hreq _ rfl rfl
  have hw : general_work demo_config demo_chain demo_state [()]
      = process_epoch demo_config demo_chain demo_state [()] :=
    general_work_of_active _ _ _ _ (Or.inl rfl) (by rw [h0]; rfl)
  have h1 : required_samples demo_config
      (general_work demo_config demo_chain demo_state [()]).state = 1 := by
    apply hreq
    · rw [hw]
      simp only [process_epoch, h0]
      simp [demo_config, demo_state]
    · rw [hw]
      simp [process_epoch, demo_chain, demo_state]
  refine ⟨⟨by rw [h0]; rfl, ?_⟩, ⟨by rw [h1]; rfl, ?_⟩, trivial⟩
  · simp [demo_chain, demo_state]
  · rw [hw]
    simp [process_epoch, demo_chain, demo_state]

/-- Witness for `lock_loss_trigger`: limit 2, two failing epochs from
`demo_state`, exactly one `LockLost` transition. -/
theorem lock_loss_trigger_witness :
    0 < demo_config.max_lock_fail ∧
      lock_lost_transitions demo_config demo_chain demo_state [[()], [()]] = 1 ∧
      (run_epochs demo_config demo_chain demo_state [[()], [()]]).phase
        = TrackingPhase.LockLost :=
  have h := (lock_loss_trigger demo_config demo_chain (by decide)).2 demo_state [[()], [()]]
    (Or.inl rfl) rfl rfl demo_failing_run
  ⟨by decide, h.1, h.2.1⟩

/-- C5: for every tracking state and every input with fewer than
`required_samples` samples, one invocation of `general_work` consumes nothing,
outputs nothing and leaves the state unchanged, so a following invocation on
any input gives the result a single invocation on that input gives. -/
theorem deferral_idempotence (cfg : TrackingConfig α) (chain : SignalChain α S)
    (st : Glonass_L1_Ca_Dll_Pll_Tracking_cc α) (short full : List S)
    (hshort : short.length < required_samples cfg st) :
    (general_work cfg chain st short).consumed = 0 ∧
      (general_work cfg chain st short).outputs = [] ∧
      (general_work cfg chain st short).state = st ∧
      general_work cfg chain (general_work cfg chain st short).state full
        = general_work cfg chain st full := by
  rw [general_work_of_short cfg chain st short hshort]
  exact ⟨rfl, rfl, rfl, rfl⟩

/-- Witness for `deferral_idempotence`: `demo_state` needs one sample; an
invocation on no sample followed by one on one sample. -/
theorem deferral_idempotence_witness :
    ([] : List Unit).length < required_samples demo_config demo_state ∧
      general_work demo_config demo_chain
          (general_work demo_config demo_chain demo_state []).state [()]
        = general_work demo_config demo_chain demo_state [()] :=
  have h : ([] : List Unit).length < required_samples demo_config demo_state := by
    simp [required_samples, demo_config, demo_state]
  ⟨h, (deferral_idempotence demo_config demo_chain demo_state [] [()] h).2.2.2⟩

end TrackingTheorems


end GnssSdr
